import Mathlib

/-!
# Platform bring-up: the flattened-device-tree walk of `src/init/platforminit.c`

A shallow embedding of the token reader, the node registry, the child-list
linking, the tree walk, the memory region table and the bootstrap routine,
followed by the properties settled about them.

Modelling conventions

* Machine integers are `Nat`; every place where the C arithmetic can wrap
  carries an explicit `% 2 ^ 32` (for `uint32_t`) or `% 2 ^ 64` (for
  `uintptr_t` and data pointers on aarch64).
* The device-tree blob is a read-only byte memory `Memory := Nat → Nat`
  (address to byte); a load reduces the stored value `% 256`.
* A `deviceNode_t *` is a `NodePtr`: `none` is `NULL` and `some i` is
  `&fdtDeviceList[i]`.  The storage of `fdtDeviceList` is a map from slot
  index to node; the array has `fdtPoolCapacity = 256` entries, slots `0` to
  `255`.
* A trap is not a value a function of the source returns: it marks an
  execution for which the source defines no result.  Storing or loading
  through `NULL` is `Trap.nullDeref`.  The allocator makes no bounds check;
  an allocation whose index is `256` or more would store past the end of the
  array, which C leaves undefined, and is `Trap.outOfBounds`.  Loops that
  the source does not bound take a fuel argument and yield `Trap.outOfFuel`
  when it is used up.
* The blob and the node storage are disjoint: node stores never change the
  bytes of the blob.
* Constants and types that the source takes from headers outside the source
  tree are parameters (`PlatformConstants`) or are marked as modelled from
  the specification.  The target is little-endian aarch64.
-/

namespace PlatformInit

/-! ## Data model -/

/-- Byte-addressed read-only memory holding the device-tree blob. -/
abbrev Memory := Nat → Nat

/-- Pointer to a device node: `none` is `NULL`, `some i` is `&fdtDeviceList[i]`. -/
abbrev NodePtr := Option Nat

/-- The ways an execution can fail to produce a result. -/
inductive Trap where
  | nullDeref
  | outOfBounds
  | outOfFuel
deriving DecidableEq, Repr

/-- Token codes of `enum _fdt_token_t`. -/
def FDT_BEGIN_NODE : Nat := 0x00000001
/-- Token code closing a node. -/
def FDT_END_NODE : Nat := 0x00000002
/-- Token code introducing a property. -/
def FDT_PROP : Nat := 0x00000003
/-- Token code of the no-operation token. -/
def FDT_NOP : Nat := 0x00000004
/-- Token code ending the structure block. -/
def FDT_END : Nat := 0x00000009

/-- The record `struct _deviceNode_t`, field for field. -/
structure deviceNode_t where
  parentNode : NodePtr
  nextPeerNode : NodePtr
  prevPeerNode : NodePtr
  firstChildNode : NodePtr
  lastChildNode : NodePtr
  interruptNumber : Nat
  baseAddress : Nat
  size : Nat
  offset : Nat
deriving DecidableEq, Repr

/-- Number of entries of the array `fdtDeviceList[256]`. -/
def fdtPoolCapacity : Nat := 256

/-- Storage of `fdtDeviceList`, indexed by slot. -/
abbrev NodePool := Nat → deviceNode_t

/-- The file-scope variables of the node registry. -/
structure Registry where
  fdtDeviceList : NodePool
  fdtDeviceTreeRoot : NodePtr
  fdtCurrentIndex : Nat
  fdtCurrentNode : NodePtr

/-- A node whose storage is all zero bits, as static storage is at start-up. -/
def zeroNode : deviceNode_t :=
  { parentNode := none, nextPeerNode := none, prevPeerNode := none,
    firstChildNode := none, lastChildNode := none,
    interruptNumber := 0, baseAddress := 0, size := 0, offset := 0 }

/-- The registry as the initialisers of the source leave it:
`fdtCurrentIndex = 0`, everything else zero. -/
def fdtInitialRegistry : Registry :=
  { fdtDeviceList := fun _ => zeroNode, fdtDeviceTreeRoot := none,
    fdtCurrentIndex := 0, fdtCurrentNode := none }

/-- Store `node` into slot `i` of the pool. -/
def setSlot (pool : NodePool) (i : Nat) (node : deviceNode_t) : NodePool :=
  fun j => if j = i then node else pool j

/-- The locals of `FdtParseTree` that live across loop iterations, together
with the registry.  (`token` and `newNode` are assigned before every use.) -/
structure WalkState where
  pCurrentLocation : Nat
  currentNode : NodePtr
  reg : Registry

/-- A memory holding the bytes `bs` from address `base` on and zero elsewhere. -/
def bytesAt (base : Nat) (bs : List Nat) : Memory :=
  fun a => if base ≤ a then bs.getD (a - base) 0 else 0

/-! ## Node registry -/

/-- Embedding of `fdtGetFreeDeviceNode`: pre-increment of the `uint32_t`
index, then seven field stores into the slot at the new index.  Returns the
pointer and the registry after the call.  The source compares the index with
nothing; when the new index is not below the 256 entries of `fdtDeviceList`
the stores go past the end of the array and the call has no defined result
(`Trap.outOfBounds`). -/
def fdtGetFreeDeviceNode (r : Registry) : Except Trap (NodePtr × Registry) :=
  let idx := (r.fdtCurrentIndex + 1) % 2 ^ 32
  if idx < fdtPoolCapacity then
    let old := r.fdtDeviceList idx
    let node : deviceNode_t :=
      { old with
        firstChildNode := none
        lastChildNode := none
        parentNode := none
        nextPeerNode := none
        baseAddress := 0
        offset := 0
        interruptNumber := 2 ^ 32 - 1 }
    .ok (some idx,
      { r with
        fdtCurrentIndex := idx
        fdtCurrentNode := some idx
        fdtDeviceList := setSlot r.fdtDeviceList idx node })
  else .error .outOfBounds

/-- The registry after `k` successive calls of `fdtGetFreeDeviceNode`. -/
def fdtGetFreeDeviceNodeCalls : Nat → Registry → Except Trap Registry
  | 0, r => .ok r
  | k + 1, r =>
    match fdtGetFreeDeviceNodeCalls k r with
    | .error e => .error e
    | .ok r1 =>
      match fdtGetFreeDeviceNode r1 with
      | .error e => .error e
      | .ok out => .ok out.2

/-- The pointer returned by the `k`-th call (`k ≥ 1`) of
`fdtGetFreeDeviceNode` in a run that starts from registry `r`. -/
def fdtNthHandle (r : Registry) (k : Nat) : Except Trap NodePtr :=
  match fdtGetFreeDeviceNodeCalls (k - 1) r with
  | .error e => .error e
  | .ok r1 =>
    match fdtGetFreeDeviceNode r1 with
    | .error e => .error e
    | .ok out => .ok out.1

/-- Embedding of `fdtProcessNode`, whose body is empty. -/
def fdtProcessNode (r : Registry) (_node : NodePtr) : Registry := r

/-! ## Token reader -/

/-- The compiler intrinsic `__builtin_bswap32` on a 32-bit value. -/
def builtin_bswap32 (x : Nat) : Nat :=
  (x % 256) * 2 ^ 24 + (x / 2 ^ 8 % 256) * 2 ^ 16
    + (x / 2 ^ 16 % 256) * 2 ^ 8 + (x / 2 ^ 24 % 256)

/-- Embedding of `fdtGetNextToken`.  The argument is the value of the
caller's cursor (`*pCurrentLocation`); the result is the token and the
caller's cursor after the call.  The source loads one `unsigned char`,
widens it to `uint32_t`, swaps it, and adds `sizeof(uint32_t)` to its own
parameter `pCurrentLocation`, which is not the caller's cursor. -/
def fdtGetNextToken (mem : Memory) (cursor : Nat) : Nat × Nat :=
  let nextToken := cursor
  let beToken := mem nextToken % 256
  let token := builtin_bswap32 beToken
  (token, cursor)

/-- The reading the specification asks for: the 32-bit big-endian value of the
four bytes at `cursor`. -/
def specBigEndian32 (mem : Memory) (cursor : Nat) : Nat :=
  (mem cursor % 256) * 2 ^ 24 + (mem (cursor + 1) % 256) * 2 ^ 16
    + (mem (cursor + 2) % 256) * 2 ^ 8 + (mem (cursor + 3) % 256)

/-- Scan loop of `fdtCollectName`: advance the cursor while the byte under
it is not NUL. -/
def fdtCollectNameScan (mem : Memory) : Nat → Nat → Except Trap Nat
  | 0, _ => .error .outOfFuel
  | fuel + 1, cursor =>
    if mem cursor % 256 ≠ 0 then fdtCollectNameScan mem fuel ((cursor + 1) % 2 ^ 64)
    else .ok cursor

/-- Embedding of `fdtCollectName`: the scan, then `alignment += 3` and
`alignment &= ~(uintptr_t)0x3` in 64-bit arithmetic.  Returns the cursor
left to the caller. -/
def fdtCollectName (mem : Memory) (fuel : Nat) (cursor : Nat) : Except Trap Nat :=
  match fdtCollectNameScan mem fuel cursor with
  | .error e => .error e
  | .ok p =>
    let alignment := (p + 3) % 2 ^ 64
    .ok (alignment &&& (2 ^ 64 - 1 - 3))

/-- Embedding of `fdtCollectRelativeOffset`: the eight bytes loaded and
swapped go to a local that is never used; the caller's cursor moves on by
`sizeof(uint64_t)`. -/
def fdtCollectRelativeOffset (_mem : Memory) (cursor : Nat) : Nat :=
  (cursor + 8) % 2 ^ 64

/-! ## Linking -/

/-- Embedding of `fdtSetParentDevNode`, statement by statement.  The second
statement assigns `parentNode->firstChildNode` to the variable `parentNode`
itself, so the third statement stores through that loaded pointer. -/
def fdtSetParentDevNode (pool : NodePool) (parentNode childNode : NodePtr) :
    Except Trap NodePool :=
  match childNode with
  | none => .error .nullDeref
  | some n =>
    let pool1 := setSlot pool n { pool n with parentNode := parentNode }
    match parentNode with
    | none => .error .nullDeref
    | some c =>
      let parentNode2 : NodePtr := (pool1 c).firstChildNode
      let pool2 := setSlot pool1 n { pool1 n with nextPeerNode := parentNode2 }
      match parentNode2 with
      | none => .error .nullDeref
      | some f => .ok (setSlot pool2 f { pool2 f with firstChildNode := childNode })

/-- Embedding of `fdtGetParentNode`. -/
def fdtGetParentNode (pool : NodePool) (node : NodePtr) : Except Trap NodePtr :=
  match node with
  | none => .error .nullDeref
  | some n => .ok (pool n).parentNode

/-! ## Tree walk -/

/-- The `switch (token)` of `FdtParseTree`.  `FDT_PROP` has no `break` and
runs into `FDT_NOP`; there is no `default` label. -/
def FdtParseSwitch (mem : Memory) (nameFuel : Nat) (token : Nat) (s : WalkState) :
    Except Trap WalkState :=
  if token = FDT_BEGIN_NODE then
    match fdtGetFreeDeviceNode s.reg with
    | .error e => .error e
    | .ok alloc =>
      let newNode := alloc.1
      match fdtSetParentDevNode alloc.2.fdtDeviceList s.currentNode newNode with
      | .error e => .error e
      | .ok pool =>
        match fdtCollectName mem nameFuel s.pCurrentLocation with
        | .error e => .error e
        | .ok cursor1 =>
          .ok { pCurrentLocation := fdtCollectRelativeOffset mem cursor1
                currentNode := s.currentNode
                reg := { alloc.2 with fdtDeviceList := pool } }
  else if token = FDT_END_NODE then
    let reg1 := fdtProcessNode s.reg s.currentNode
    match fdtGetParentNode reg1.fdtDeviceList s.currentNode with
    | .error e => .error e
    | .ok parent => .ok { s with currentNode := parent, reg := reg1 }
  else if token = FDT_PROP then .ok s
  else if token = FDT_NOP then .ok s
  else if token = FDT_END then .ok s
  else .ok s

/-- What one pass through the `while` of `FdtParseTree` leads to. -/
inductive LoopStep where
  | exit (s : WalkState)
  | next (s : WalkState)
  | trap (e : Trap)

/-- One evaluation of the loop condition
`(token = fdtGetNextToken(&pCurrentLocation)) != FDT_END` followed, when it
holds, by the loop body. -/
def FdtParseIter (mem : Memory) (nameFuel : Nat) (s : WalkState) : LoopStep :=
  let r := fdtGetNextToken mem s.pCurrentLocation
  let token := r.1
  let s1 : WalkState := { s with pCurrentLocation := r.2 }
  if token ≠ FDT_END then
    match FdtParseSwitch mem nameFuel token s1 with
    | .error e => .trap e
    | .ok s2 => .next s2
  else .exit s1

/-- Embedding of `FdtParseTree`.  The parameter `fdt` is never read by the
source; the locals `pCurrentLocation` and `currentNode` are used without
having been assigned, so their initial values come in with `s`.  `fuel`
bounds the number of loop passes. -/
def FdtParseTree (mem : Memory) (nameFuel : Nat) (_fdt : Nat) :
    Nat → WalkState → Except Trap WalkState
  | 0, _ => .error .outOfFuel
  | fuel + 1, s =>
    match FdtParseIter mem nameFuel s with
    | .exit s1 => .ok s1
    | .trap e => .error e
    | .next s1 => FdtParseTree mem nameFuel _fdt fuel s1

/-! ## Memory region table, device table and bootstrap -/

/-- Modelled from the spec: `memoryDescriptor_t` is declared in `memory.h`,
which is not part of the source tree.  A region descriptor has a base, a
size and a type tag.  Base and size are taken as 64-bit unsigned fields (the
device table stores the 36-bit constant `0x4C0041000ULL` in a `memoryBase`);
the width of the type tag is the parameter `memoryTypeBits`. -/
structure memoryDescriptor_t where
  memoryBase : Nat
  memorySize : Nat
  memoryType : Nat
deriving DecidableEq, Repr

/-- The constants that `platforminit.c` takes from headers outside the source
tree, as parameters: the two linker-level ROM-area constants, the memory type
tags, the success status, and the bit width of the `memoryType` field. -/
structure PlatformConstants where
  _OS_VIRT_ROM_AREA_BASE : Nat
  _OS_VIRT_ROM_AREA_SIZE : Nat
  MEM_TYPE_NORMAL_MEMORY : Nat
  MEM_TYPE_DEVICE_MEMORY : Nat
  MEM_TYPE_NONE : Nat
  STATUS_SUCCESS : Nat
  memoryTypeBits : Nat
deriving DecidableEq, Repr

/-- The value `-1` stored into an unsigned field of `bits` bits: all bits set. -/
def invalidMarker (bits : Nat) : Nat := 2 ^ bits - 1

/-- Storage of the array `platformMemory[3]`, indexed by entry. -/
abbrev RegionTable := Nat → memoryDescriptor_t

/-- Number of entries of the array `platformMemory[3]`. -/
def platformMemoryEntries : Nat := 3

/-- Apply the field store `f` to entry `i` of the table. -/
def storeEntry (t : RegionTable) (i : Nat) (f : memoryDescriptor_t → memoryDescriptor_t) :
    RegionTable :=
  fun j => if j = i then f (t j) else t j

/-- Embedding of `platformBuildTable`: nine field stores, then
`return STATUS_SUCCESS`.  The argument is the content of `platformMemory`
before the call; the result is the status and the content after it. -/
def platformBuildTable (c : PlatformConstants) (platformMemory : RegionTable) :
    Nat × RegionTable :=
  let t1 := storeEntry platformMemory 0
    (fun d => { d with memoryBase := c._OS_VIRT_ROM_AREA_BASE % 2 ^ 64 })
  let t2 := storeEntry t1 0
    (fun d => { d with memorySize := c._OS_VIRT_ROM_AREA_SIZE % 2 ^ 64 })
  let t3 := storeEntry t2 0
    (fun d => { d with memoryType := c.MEM_TYPE_NORMAL_MEMORY % 2 ^ c.memoryTypeBits })
  let t4 := storeEntry t3 1
    (fun d => { d with memoryBase := (1024 * 1024 * 1024) % 2 ^ 64 })
  let t5 := storeEntry t4 1
    (fun d => { d with
      memorySize :=
        ((((1024 * 1024 * 1024 + 16 * 1024 * 1024) - 1) + 1) - 1024 * 1024 * 1024) % 2 ^ 64 })
  let t6 := storeEntry t5 1
    (fun d => { d with memoryType := c.MEM_TYPE_NORMAL_MEMORY % 2 ^ c.memoryTypeBits })
  let t7 := storeEntry t6 2 (fun d => { d with memoryBase := invalidMarker 64 })
  let t8 := storeEntry t7 2 (fun d => { d with memorySize := invalidMarker 64 })
  let t9 := storeEntry t8 2 (fun d => { d with memoryType := invalidMarker c.memoryTypeBits })
  (c.STATUS_SUCCESS, t9)

/-- Whether a region descriptor is the terminator: base, size and type all
equal to the invalid marker. -/
def isTerminator (c : PlatformConstants) (d : memoryDescriptor_t) : Bool :=
  d.memoryBase == invalidMarker 64 && d.memorySize == invalidMarker 64
    && d.memoryType == invalidMarker c.memoryTypeBits

/-- Modelled from the spec: the terminator-driven scan of the consumers of
the table, which are not part of the source tree.  Starting at entry `i`, it
looks at up to `fuel` entries and returns the index of the first one that is
the terminator. -/
def scanRegionTable (c : PlatformConstants) (t : RegionTable) : Nat → Nat → Option Nat
  | 0, _ => none
  | fuel + 1, i =>
    if isTerminator c (t i) then some i else scanRegionTable c t fuel (i + 1)

/-- The driver-init functions named in `platformDeviceList`. -/
inductive DriverInit where
  | Gic400DistributorInit
  | Gic400CpuInit
deriving DecidableEq, Repr

/-- Modelled from the spec: `device_t` is declared in `devices.h`, which is
not part of the source tree.  A device descriptor pairs a driver-init
reference (`none` is `NULL`) with an MMIO window and a secondary memory
window. -/
structure device_t where
  driverInit : Option DriverInit
  mmio : memoryDescriptor_t
  mem : memoryDescriptor_t
deriving DecidableEq, Repr

/-- The initialiser of `platformDeviceList`: the GIC400 distributor, the
GIC400 CPU interface, and the end-of-list tag. -/
def platformDeviceList (c : PlatformConstants) : List device_t :=
  [ { driverInit := some .Gic400DistributorInit
      mmio := { memoryBase := 0x4C0041000 % 2 ^ 64
                memorySize := (4 * 1024) % 2 ^ 64
                memoryType := c.MEM_TYPE_DEVICE_MEMORY % 2 ^ c.memoryTypeBits }
      mem := { memoryBase := 0
               memorySize := 0
               memoryType := c.MEM_TYPE_NONE % 2 ^ c.memoryTypeBits } },
    { driverInit := some .Gic400CpuInit
      mmio := { memoryBase := 0x4C0042000 % 2 ^ 64
                memorySize := (4 * 1024) % 2 ^ 64
                memoryType := c.MEM_TYPE_DEVICE_MEMORY % 2 ^ c.memoryTypeBits }
      mem := { memoryBase := 0
               memorySize := 0
               memoryType := c.MEM_TYPE_NONE % 2 ^ c.memoryTypeBits } },
    { driverInit := none
      mmio := { memoryBase := invalidMarker 64
                memorySize := invalidMarker 64
                memoryType := invalidMarker c.memoryTypeBits }
      mem := { memoryBase := invalidMarker 64
               memorySize := invalidMarker 64
               memoryType := invalidMarker c.memoryTypeBits } } ]

/-- The driver-init calls made by `fdtProcessNode`, in order.  The body of
the source holds nothing but the comment `//find and init driver`, so
whatever the node and the device table, there are none. -/
def fdtProcessNodeInvocations (_c : PlatformConstants) (_r : Registry) (_node : NodePtr) :
    List DriverInit :=
  []

/-- A native `uint32_t` load on the little-endian aarch64 target (the target
for which the source's unconditional `__builtin_bswap32` yields big-endian
values). -/
def hostLoad32 (mem : Memory) (a : Nat) : Nat :=
  (mem a % 256) + (mem (a + 1) % 256) * 2 ^ 8
    + (mem (a + 2) % 256) * 2 ^ 16 + (mem (a + 3) % 256) * 2 ^ 24

/-- Byte offset of the field `off_dt_struct` in `fdt_header_t`: it follows
`magic` and `totalsize`. -/
def offsetof_off_dt_struct : Nat := 8

/-- What `platformInit` does that is visible from outside: the table left
by `platformBuildTable`, the argument of its call of `ParseTree`, and the
two arguments of its call of `MmuInit`.  `ParseTree` and `MmuInit` are
defined outside the source tree; their own effects are not modelled. -/
structure PlatformInitTrace where
  platformMemory : RegionTable
  parseTreeArg : Nat
  mmuInitBase : Nat
  mmuInitSize : Nat

/-- Embedding of `platformInit`.  The status returned by
`platformBuildTable` is discarded, as in the source; the header field
`ftd->off_dt_struct` is loaded as it lies in memory. -/
def platformInit (c : PlatformConstants) (mem : Memory) (platformMemory : RegionTable) :
    PlatformInitTrace :=
  let built := platformBuildTable c platformMemory
  let ftd := 0x40000000
  let pDevTree := (hostLoad32 mem (ftd + offsetof_off_dt_struct) + ftd) % 2 ^ 64
  { platformMemory := built.2
    parseTreeArg := pDevTree
    mmuInitBase :=
      ((((1024 * 1024 * 1024 + 16 * 1024 * 1024) - 1) - 1 * 1024 * 1024) + 1) % 2 ^ 64
    mmuInitSize := 1 * 1024 * 1024 }

/-! ## Concrete inputs used below -/

/-- Address at which the sample token streams are placed. -/
def sampleCursor : Nat := 0x40000040

/-- A walk state at the start of a walk: cursor at `cursor`, no current
node, registry as initialised. -/
def walkStart (cursor : Nat) : WalkState :=
  { pCurrentLocation := cursor, currentNode := none, reg := fdtInitialRegistry }

/-- Whether a loop pass leads to another evaluation of the loop condition,
that is, to another call of `fdtGetNextToken`. -/
def LoopStep.continues : LoopStep → Bool
  | .next _ => true
  | .exit _ => false
  | .trap _ => false

/-- The state a loop pass hands to the next pass, when there is one. -/
def LoopStep.state? : LoopStep → Option WalkState
  | .next s => some s
  | .exit _ => none
  | .trap _ => none

/-- The pool after two allocations from the initial registry: slots 1 and 2
are fresh nodes. -/
def poolTwoFresh : NodePool :=
  match fdtGetFreeDeviceNodeCalls 2 fdtInitialRegistry with
  | .ok r => r.fdtDeviceList
  | .error _ => fdtInitialRegistry.fdtDeviceList

/-- The pool after three allocations from the initial registry, in which
slot 1 has then been given slot 3 as its first child. -/
def poolWithChild : NodePool :=
  let pool : NodePool :=
    match fdtGetFreeDeviceNodeCalls 3 fdtInitialRegistry with
    | .ok r => r.fdtDeviceList
    | .error _ => fdtInitialRegistry.fdtDeviceList
  setSlot pool 1 { pool 1 with firstChildNode := some 3 }

/-- A walk state whose current node is slot 1 of `poolWithChild`, with three
slots handed out so far. -/
def walkAtOpenNode : WalkState :=
  { pCurrentLocation := sampleCursor
    currentNode := some 1
    reg := { fdtDeviceList := poolWithChild, fdtDeviceTreeRoot := none,
             fdtCurrentIndex := 3, fdtCurrentNode := some 3 } }

/-- The bytes of the name "cpu" with its terminator, at `sampleCursor`. -/
def memNameCpu : Memory := bytesAt sampleCursor [0x63, 0x70, 0x75, 0]

/-- Link `childNode` under `parentNode`, then ask for the parent of
`childNode`, as `FDT_BEGIN_NODE` followed by `FDT_END_NODE` would. -/
def linkThenGetParent (pool : NodePool) (parentNode childNode : NodePtr) :
    Except Trap NodePtr :=
  match fdtSetParentDevNode pool parentNode childNode with
  | .error e => .error e
  | .ok pool1 => fdtGetParentNode pool1 childNode

/-- A registry as initialised, except that slot 1 holds stale values in the
two fields `prevPeerNode` and `size`. -/
def registryWithStaleSlot : Registry :=
  { fdtInitialRegistry with
    fdtDeviceList :=
      setSlot (fun _ => zeroNode) 1 { zeroNode with prevPeerNode := some 2, size := 4096 } }

/-- Sample values for the constants defined outside the source tree: a ROM
area of 1 MiB at address 0, type tags 0 (none), 1 (normal) and 2 (device),
success status 0, and a 32-bit type field. -/
def sampleConstants : PlatformConstants :=
  { _OS_VIRT_ROM_AREA_BASE := 0
    _OS_VIRT_ROM_AREA_SIZE := 1024 * 1024
    MEM_TYPE_NORMAL_MEMORY := 1
    MEM_TYPE_DEVICE_MEMORY := 2
    MEM_TYPE_NONE := 0
    STATUS_SUCCESS := 0
    memoryTypeBits := 32 }

/-- A region table whose entries are all zero. -/
def zeroRegionTable : RegionTable :=
  fun _ => { memoryBase := 0, memorySize := 0, memoryType := 0 }

/-- The first twelve bytes of a device-tree header at `0x40000000`: magic
`d0 0d fe ed`, total size `0x1000`, and `off_dt_struct` = `0x38`, all
big-endian. -/
def memSampleHeader : Memory :=
  bytesAt 0x40000000 [0xd0, 0x0d, 0xfe, 0xed, 0, 0, 0x10, 0, 0, 0, 0, 0x38]

/-- The bytes of the name "abcd" with its terminator, at `sampleCursor`. -/
def memNameAbcd : Memory := bytesAt sampleCursor [0x61, 0x62, 0x63, 0x64, 0]

/-- The bytes of the empty name (the root node's), at `sampleCursor`. -/
def memNameEmpty : Memory := bytesAt sampleCursor [0]

/-- A registry, otherwise as initialised, whose slot 1 is a node at the MMIO
base of the GIC400 distributor. -/
def registryWithGicNode : Registry :=
  { fdtInitialRegistry with
    fdtDeviceList := setSlot (fun _ => zeroNode) 1 { zeroNode with baseAddress := 0x4C0041000 }
    fdtCurrentIndex := 1
    fdtCurrentNode := some 1 }

/-! ## Auxiliary facts -/

theorem and_clear_low2 (x : Nat) (h : x < 2 ^ 64) :
    x &&& (2 ^ 64 - 1 - 3) = x / 4 * 4 := by
  apply Nat.eq_of_testBit_eq
  intro i
  have hm : (2 ^ 64 - 1 - 3 : Nat) = 2 ^ 2 * (2 ^ 62 - 1) := by norm_num
  have hx : x / 4 * 4 = 2 ^ 2 * (x / 2 ^ 2) := by norm_num [Nat.mul_comm]
  rw [Nat.testBit_and, hm, hx, Nat.testBit_mul_pow_two, Nat.testBit_mul_pow_two,
    Nat.testBit_two_pow_sub_one, ← Nat.shiftRight_eq_div_pow, Nat.testBit_shiftRight]
  by_cases h2 : 2 ≤ i
  · by_cases h64 : i < 64
    · have : i - 2 < 62 := by omega
      have e : 2 + (i - 2) = i := by omega
      simp [h2, this, e]
    · have hlt : x < 2 ^ i := lt_of_lt_of_le h (Nat.pow_le_pow_right (by norm_num) (by omega))
      have e : 2 + (i - 2) = i := by omega
      simp [Nat.testBit_eq_false_of_lt hlt, e]
  · simp [h2]

theorem builtin_bswap32_byte (b : Nat) (h : b < 256) :
    builtin_bswap32 b = b * 2 ^ 24 := by
  unfold builtin_bswap32
  omega

theorem fdtGetNextToken_token (mem : Memory) (cursor : Nat) :
    (fdtGetNextToken mem cursor).1 = (mem cursor % 256) * 2 ^ 24 := by
  simp only [fdtGetNextToken]
  exact builtin_bswap32_byte _ (Nat.mod_lt _ (by norm_num))

theorem fdtGetNextToken_cursor (mem : Memory) (cursor : Nat) :
    (fdtGetNextToken mem cursor).2 = cursor := rfl

/-- No value the token reader can return is below `2 ^ 24` unless it is `0`. -/
theorem fdtGetNextToken_zero_or_large (mem : Memory) (cursor : Nat) :
    (fdtGetNextToken mem cursor).1 = 0 ∨ 2 ^ 24 ≤ (fdtGetNextToken mem cursor).1 := by
  rw [fdtGetNextToken_token]
  rcases Nat.eq_zero_or_pos (mem cursor % 256) with h | h
  · left; simp [h]
  · right; exact Nat.le_mul_of_pos_left _ h

theorem FdtParseSwitch_other (mem : Memory) (nameFuel token : Nat) (s : WalkState)
    (h1 : token ≠ FDT_BEGIN_NODE) (h2 : token ≠ FDT_END_NODE) :
    FdtParseSwitch mem nameFuel token s = .ok s := by
  unfold FdtParseSwitch
  simp only [h1, h2, if_false]
  split_ifs <;> rfl

theorem FdtParseIter_next (mem : Memory) (nameFuel : Nat) (s : WalkState) :
    FdtParseIter mem nameFuel s = LoopStep.next s := by
  have ht := fdtGetNextToken_zero_or_large mem s.pCurrentLocation
  have hne : ∀ c : Nat, 0 < c → c < 2 ^ 24 →
      (fdtGetNextToken mem s.pCurrentLocation).1 ≠ c := by
    intro c hc0 hc1 he
    rcases ht with h | h <;> omega
  have hB := hne FDT_BEGIN_NODE (by decide) (by decide)
  have hE := hne FDT_END_NODE (by decide) (by decide)
  have hX := hne FDT_END (by decide) (by decide)
  unfold FdtParseIter
  simp only [ne_eq, hX, not_false_eq_true, if_true]
  rw [FdtParseSwitch_other mem nameFuel _ _ hB hE]
  rfl

theorem FdtParseTree_outOfFuel (mem : Memory) (nameFuel fdt : Nat) :
    ∀ (fuel : Nat) (s : WalkState),
      FdtParseTree mem nameFuel fdt fuel s = .error .outOfFuel := by
  intro fuel
  induction fuel with
  | zero => intro s; rfl
  | succ n ih =>
    intro s
    rw [FdtParseTree, FdtParseIter_next]
    exact ih s

/-- Inside the pool a call returns the slot at the incremented index. -/
theorem fdtGetFreeDeviceNode_in_pool (r : Registry)
    (h : r.fdtCurrentIndex + 1 < fdtPoolCapacity) :
    ∃ out, fdtGetFreeDeviceNode r = .ok out ∧ out.1 = some (r.fdtCurrentIndex + 1) ∧
      out.2.fdtCurrentIndex = r.fdtCurrentIndex + 1 := by
  have hcap : r.fdtCurrentIndex + 1 < 256 := h
  have hmod : (r.fdtCurrentIndex + 1) % 2 ^ 32 = r.fdtCurrentIndex + 1 :=
    Nat.mod_eq_of_lt (by omega)
  unfold fdtGetFreeDeviceNode
  simp only [hmod, h, if_true]
  exact ⟨_, rfl, rfl, rfl⟩

/-- With 255 slots handed out, the next call indexes past the array. -/
theorem fdtGetFreeDeviceNode_past_pool (r : Registry) (h : r.fdtCurrentIndex = 255) :
    fdtGetFreeDeviceNode r = .error .outOfBounds := by
  unfold fdtGetFreeDeviceNode
  rw [h]
  rfl

theorem fdtGetFreeDeviceNodeCalls_in_pool (r : Registry) :
    ∀ k : Nat, r.fdtCurrentIndex + k < fdtPoolCapacity →
      ∃ r1, fdtGetFreeDeviceNodeCalls k r = .ok r1 ∧
        r1.fdtCurrentIndex = r.fdtCurrentIndex + k := by
  intro k
  induction k with
  | zero => intro _; exact ⟨r, rfl, rfl⟩
  | succ n ih =>
    intro h
    have hcap : r.fdtCurrentIndex + (n + 1) < 256 := h
    obtain ⟨r1, hr1, hi1⟩ := ih (by unfold fdtPoolCapacity; omega)
    obtain ⟨out, ho, _, hoi⟩ :=
      fdtGetFreeDeviceNode_in_pool r1 (by rw [hi1]; unfold fdtPoolCapacity; omega)
    refine ⟨out.2, ?_, by rw [hoi, hi1]; omega⟩
    rw [fdtGetFreeDeviceNodeCalls, hr1]
    simp only [ho]

theorem fdtNthHandle_in_pool (r : Registry) (k : Nat) (hk : 1 ≤ k)
    (h : r.fdtCurrentIndex + k < fdtPoolCapacity) :
    fdtNthHandle r k = .ok (some (r.fdtCurrentIndex + k)) := by
  have hcap : r.fdtCurrentIndex + k < 256 := h
  obtain ⟨r1, hr1, hi1⟩ :=
    fdtGetFreeDeviceNodeCalls_in_pool r (k - 1) (by unfold fdtPoolCapacity; omega)
  obtain ⟨out, ho, hp, _⟩ :=
    fdtGetFreeDeviceNode_in_pool r1 (by rw [hi1]; unfold fdtPoolCapacity; omega)
  unfold fdtNthHandle
  rw [hr1]
  simp only [ho, hp, hi1]
  congr 2
  omega

/-- From `fdtCurrentIndex = 0` the 256th call indexes past the array, and the
run has no defined state after it. -/
theorem fdtGetFreeDeviceNodeCalls_past_pool (r : Registry) (h0 : r.fdtCurrentIndex = 0) :
    fdtNthHandle r 256 = .error .outOfBounds ∧
    fdtGetFreeDeviceNodeCalls 256 r = .error .outOfBounds ∧
    fdtNthHandle r 257 = .error .outOfBounds := by
  obtain ⟨r1, hr1, hi1⟩ :=
    fdtGetFreeDeviceNodeCalls_in_pool r 255 (by rw [h0]; decide)
  rw [h0] at hi1
  have htrap := fdtGetFreeDeviceNode_past_pool r1 hi1
  have h256 : fdtGetFreeDeviceNodeCalls 256 r = .error .outOfBounds := by
    rw [fdtGetFreeDeviceNodeCalls, hr1]
    simp only [htrap]
  refine ⟨?_, h256, ?_⟩
  · unfold fdtNthHandle
    simp only [Nat.add_one_sub_one, show 256 - 1 = 255 from rfl, hr1, htrap]
  · unfold fdtNthHandle
    simp only [show 257 - 1 = 256 from rfl, h256]

/-! ## Token reader: byte order and cursor -/

/-- C1: on each of the five token byte sequences `00 00 00 t`
(`t` = 1, 2, 3, 4, 9) the big-endian value of the four bytes is the token
code `t`, but `fdtGetNextToken` returns `0`: it loads only the first byte and
swaps that. -/
theorem fdtGetNextToken_token_bytes_read_as_zero :
    [FDT_BEGIN_NODE, FDT_END_NODE, FDT_PROP, FDT_NOP, FDT_END].map
        (fun t =>
          (specBigEndian32 (bytesAt sampleCursor [0, 0, 0, t]) sampleCursor,
            (fdtGetNextToken (bytesAt sampleCursor [0, 0, 0, t]) sampleCursor).1))
      = [(FDT_BEGIN_NODE, 0), (FDT_END_NODE, 0), (FDT_PROP, 0), (FDT_NOP, 0), (FDT_END, 0)] := by
  decide

/-- C2: a call of `fdtGetNextToken` with the caller's cursor at `0x40000040`
leaves that cursor at `0x40000040`, not at `0x40000044`: the increment is
applied to the function's own parameter. -/
theorem fdtGetNextToken_leaves_cursor_in_place :
    (fdtGetNextToken (bytesAt sampleCursor [0, 0, 0, 1]) sampleCursor).2 = sampleCursor ∧
    (fdtGetNextToken (bytesAt sampleCursor [0, 0, 0, 1]) sampleCursor).2 ≠ sampleCursor + 4 := by
  decide

/-! ## Tree walk: unrecognised tokens and the end token -/

/-- C3 (refutation): with the bytes `07 00 00 00` at the cursor the token is
`0x07000000`, none of the five codes, and the loop pass neither traps nor
leaves the loop: it goes on to the next evaluation of the loop condition,
with the current node unchanged and no node allocated. -/
theorem FdtParseIter_unrecognized_token_continues :
    (fdtGetNextToken (bytesAt sampleCursor [7, 0, 0, 0]) sampleCursor).1 = 0x07000000 ∧
    specBigEndian32 (bytesAt sampleCursor [7, 0, 0, 0]) sampleCursor = 0x07000000 ∧
    (FdtParseIter (bytesAt sampleCursor [7, 0, 0, 0]) 16 (walkStart sampleCursor)).continues
      = true ∧
    (FdtParseIter (bytesAt sampleCursor [7, 0, 0, 0]) 16 (walkStart sampleCursor)).state?.map
        (fun s => (s.currentNode, s.reg.fdtCurrentIndex))
      = some ((walkStart sampleCursor).currentNode, 0) := by
  decide

/-- C3 (amended): when the token read at the cursor is none of 1, 2, 3, 4, 9,
the loop pass reports nothing and does not stop: it leads to another pass,
with the current node and the registry as they were. -/
theorem FdtParseIter_unrecognized_token_ignored (mem : Memory) (nameFuel : Nat)
    (s : WalkState)
    (h : (fdtGetNextToken mem s.pCurrentLocation).1 ∉
      [FDT_BEGIN_NODE, FDT_END_NODE, FDT_PROP, FDT_NOP, FDT_END]) :
    ∃ s1, FdtParseIter mem nameFuel s = LoopStep.next s1 ∧
      s1.currentNode = s.currentNode ∧ s1.reg = s.reg := by
  simp only [List.mem_cons, List.mem_singleton, List.not_mem_nil, or_false, not_or] at h
  obtain ⟨hB, hE, _, _, hX⟩ := h
  refine ⟨s, ?_, rfl, rfl⟩
  unfold FdtParseIter
  simp only [ne_eq, hX, not_false_eq_true, if_true]
  rw [FdtParseSwitch_other mem nameFuel _ _ hB hE]
  rfl

/-- C3 (amended), instance: the bytes `07 00 00 00`. -/
theorem FdtParseIter_unrecognized_token_ignored_witness :
    (fdtGetNextToken (bytesAt sampleCursor [7, 0, 0, 0])
        (walkStart sampleCursor).pCurrentLocation).1 ∉
      [FDT_BEGIN_NODE, FDT_END_NODE, FDT_PROP, FDT_NOP, FDT_END] ∧
    ∃ s1, FdtParseIter (bytesAt sampleCursor [7, 0, 0, 0]) 16 (walkStart sampleCursor)
        = LoopStep.next s1 ∧
      s1.currentNode = (walkStart sampleCursor).currentNode ∧
      s1.reg = (walkStart sampleCursor).reg :=
  ⟨by decide,
    FdtParseIter_unrecognized_token_ignored (bytesAt sampleCursor [7, 0, 0, 0]) 16
      (walkStart sampleCursor) (by decide)⟩

/-- C4: with the bytes `00 00 00 09` (the END token) at the cursor, the token
reader returns `0`, not `FDT_END`, and the walk does not leave its loop: for
every number of loop passes allowed, `FdtParseTree` is still running when
they are used up. -/
theorem FdtParseTree_end_token_does_not_terminate :
    specBigEndian32 (bytesAt sampleCursor [0, 0, 0, 9]) sampleCursor = FDT_END ∧
    (fdtGetNextToken (bytesAt sampleCursor [0, 0, 0, 9]) sampleCursor).1 = 0 ∧
    ∀ fuel : Nat,
      FdtParseTree (bytesAt sampleCursor [0, 0, 0, 9]) 16 sampleCursor fuel
        (walkStart sampleCursor) = .error .outOfFuel :=
  ⟨by decide, by decide, fun fuel => FdtParseTree_outOfFuel _ _ _ fuel _⟩

/-! ## Linking a node under its parent -/

/-- C5: linking the fresh node in slot 2 under the node in slot 1.  When slot 1 has no child the
call stores through the null pointer it has just loaded.  When slot 1 has
slot 3 as first child, the head of its child list stays slot 3; the new
node is written into slot 3 as first child instead, while the new node's
`nextPeerNode` is slot 3. -/
theorem fdtSetParentDevNode_does_not_prepend :
    (fdtSetParentDevNode poolTwoFresh (some 1) (some 2)).toOption.isNone = true ∧
    (fdtSetParentDevNode poolWithChild (some 1) (some 2)).toOption.map
        (fun pool => ((pool 1).firstChildNode, (pool 2).nextPeerNode, (pool 3).firstChildNode))
      = some (some 3, some 3, some 2) := by
  decide

/-- C6: handling `FDT_BEGIN_NODE` with slot 1 as current node allocates slot 4
(the registry's `fdtCurrentNode`), yet the current node of the walk is still
slot 1 afterwards. -/
theorem FdtParseSwitch_begin_node_keeps_current_node :
    (FdtParseSwitch memNameCpu 16 FDT_BEGIN_NODE walkAtOpenNode).toOption.map
        (fun s => (s.currentNode, s.reg.fdtCurrentNode, s.reg.fdtCurrentIndex))
      = some (some 1, some 4, 4) := by
  decide

/-- C7: linking the fresh slot 2 under the childless slot 1 traps on the null
store, so no parent can be read back; linking it under a slot 1 that has a
child completes, and then the parent of slot 2 is slot 1. -/
theorem linkThenGetParent_traps_on_childless_parent :
    linkThenGetParent poolTwoFresh (some 1) (some 2) = .error .nullDeref ∧
    linkThenGetParent poolWithChild (some 1) (some 2) = .ok (some 1) := by
  constructor <;> rfl

/-! ## Node registry -/

/-- C8: starting from the initial registry the 255th call of
`fdtGetFreeDeviceNode` returns slot 255, the last entry of the pool (slot 0 is
skipped by the pre-increment).  The 256th call is not refused: it indexes
`fdtDeviceList[256]` and stores past the end of the array, and from there on
the run, the 257th call (the capacity + 1-th) included, has no defined
result.  No call reports exhaustion. -/
theorem fdtGetFreeDeviceNode_overruns_pool_unchecked :
    fdtNthHandle fdtInitialRegistry 255 = .ok (some 255) ∧
    fdtNthHandle fdtInitialRegistry (fdtPoolCapacity) = .error .outOfBounds ∧
    fdtNthHandle fdtInitialRegistry (fdtPoolCapacity + 1) = .error .outOfBounds :=
  ⟨fdtNthHandle_in_pool fdtInitialRegistry 255 (by decide) (by decide),
    (fdtGetFreeDeviceNodeCalls_past_pool fdtInitialRegistry rfl).1,
    (fdtGetFreeDeviceNodeCalls_past_pool fdtInitialRegistry rfl).2.2⟩

/-- C9 (refutation): from the initial registry, the 255th and the 256th call
do not return two slots with increasing index: the 256th call stores past the
256-entry array and returns no slot of the pool. -/
theorem fdtGetFreeDeviceNode_call_256_returns_no_slot :
    ¬ ∃ a b, fdtNthHandle fdtInitialRegistry 255 = .ok (some a) ∧
      fdtNthHandle fdtInitialRegistry 256 = .ok (some b) ∧ a < b := by
  rintro ⟨a, b, _, hb, _⟩
  rw [(fdtGetFreeDeviceNodeCalls_past_pool fdtInitialRegistry rfl).1] at hb
  cases hb

/-- C9 (amended): in a run of at most 255 calls of `fdtGetFreeDeviceNode` that
starts with `fdtCurrentIndex = 0`, every call returns a slot, the slot index
strictly increases from each call to the next, and the `i`-th and `j`-th calls
return different slots whenever `i ≠ j`. -/
theorem fdtGetFreeDeviceNode_handles_never_alias_in_pool (r : Registry)
    (h0 : r.fdtCurrentIndex = 0) :
    (∀ k : Nat, 1 ≤ k → k + 1 ≤ 255 →
      ∃ a b, fdtNthHandle r k = .ok (some a) ∧ fdtNthHandle r (k + 1) = .ok (some b) ∧
        a < b) ∧
    (∀ i j : Nat, 1 ≤ i → i ≤ 255 → 1 ≤ j → j ≤ 255 → i ≠ j →
      ∃ a b, fdtNthHandle r i = .ok (some a) ∧ fdtNthHandle r j = .ok (some b) ∧
        a ≠ b) := by
  have key : ∀ k : Nat, 1 ≤ k → k ≤ 255 → fdtNthHandle r k = .ok (some k) := by
    intro k hk hle
    have := fdtNthHandle_in_pool r k hk (by rw [h0]; unfold fdtPoolCapacity; omega)
    rw [h0, Nat.zero_add] at this
    exact this
  constructor
  · intro k hk hle
    exact ⟨k, k + 1, key k hk (by omega), key (k + 1) (by omega) hle, Nat.lt_succ_self k⟩
  · intro i j hi hil hj hjl hne
    exact ⟨i, j, key i hi hil, key j hj hjl, hne⟩

/-- C9 (amended), instance: the initial registry; the third and fourth calls,
and the first and the 255th. -/
theorem fdtGetFreeDeviceNode_handles_never_alias_in_pool_witness :
    fdtInitialRegistry.fdtCurrentIndex = 0 ∧
    (∃ a b, fdtNthHandle fdtInitialRegistry 3 = .ok (some a) ∧
      fdtNthHandle fdtInitialRegistry (3 + 1) = .ok (some b) ∧ a < b) ∧
    (∃ a b, fdtNthHandle fdtInitialRegistry 1 = .ok (some a) ∧
      fdtNthHandle fdtInitialRegistry 255 = .ok (some b) ∧ a ≠ b) :=
  ⟨rfl,
    (fdtGetFreeDeviceNode_handles_never_alias_in_pool fdtInitialRegistry rfl).1 3
      (by decide) (by decide),
    (fdtGetFreeDeviceNode_handles_never_alias_in_pool fdtInitialRegistry rfl).2 1 255
      (by decide) (by decide) (by decide) (by decide) (by decide)⟩

/-- C10: when slot 1 holds a stale `prevPeerNode` and a stale `size`, the node
returned by `fdtGetFreeDeviceNode` still holds them: the call resets seven of
the nine fields and leaves these two as they were. -/
theorem fdtGetFreeDeviceNode_keeps_stale_fields :
    (fdtGetFreeDeviceNode registryWithStaleSlot).toOption.map (fun out => out.1)
      = some (some 1) ∧
    (fdtGetFreeDeviceNode registryWithStaleSlot).toOption.map
        (fun out => out.2.fdtDeviceList 1) =
      some { parentNode := none, nextPeerNode := none, prevPeerNode := some 2,
             firstChildNode := none, lastChildNode := none,
             interruptNumber := 0xFFFFFFFF, baseAddress := 0, size := 4096, offset := 0 } := by
  decide

/-! ## Name collection -/

/-- The scan loop stops on the first NUL byte: with `L` non-NUL bytes from `a`
on, a NUL after them and more than `L` units of fuel, it yields `a + L`. -/
theorem fdtCollectNameScan_finds_terminator (mem : Memory) :
    ∀ (L a fuel : Nat), (∀ i, i < L → mem (a + i) % 256 ≠ 0) → mem (a + L) % 256 = 0 →
      a + L < 2 ^ 64 → L < fuel → fdtCollectNameScan mem fuel a = .ok (a + L) := by
  intro L
  induction L with
  | zero =>
    intro a fuel _ hz _ hf
    obtain ⟨f, rfl⟩ : ∃ f, fuel = f + 1 := ⟨fuel - 1, by omega⟩
    have hz0 : mem a % 256 = 0 := by simpa using hz
    simp [fdtCollectNameScan, hz0]
  | succ n ih =>
    intro a fuel hnz hz hlt hf
    obtain ⟨f, rfl⟩ : ∃ f, fuel = f + 1 := ⟨fuel - 1, by omega⟩
    have h0 : mem a % 256 ≠ 0 := by simpa using hnz 0 (Nat.succ_pos n)
    have hmod : (a + 1) % 2 ^ 64 = a + 1 := Nat.mod_eq_of_lt (by omega)
    have hrec := ih (a + 1) f
      (fun i hi => by
        have := hnz (i + 1) (by omega)
        rwa [show a + (i + 1) = a + 1 + i by omega] at this)
      (by rwa [show a + 1 + n = a + (n + 1) by omega])
      (by omega) (by omega)
    rw [fdtCollectNameScan, if_pos h0, hmod, hrec]
    congr 1
    omega

/-- The cursor `fdtCollectName` leaves for a name of length `L` at `a`:
`a + L + 3` with its two low bits cleared. -/
theorem fdtCollectName_eq (mem : Memory) (a L fuel : Nat)
    (hnz : ∀ i, i < L → mem (a + i) % 256 ≠ 0) (hz : mem (a + L) % 256 = 0)
    (hlt : a + L + 3 < 2 ^ 64) (hf : L < fuel) :
    fdtCollectName mem fuel a = .ok ((a + L + 3) / 4 * 4) := by
  unfold fdtCollectName
  rw [fdtCollectNameScan_finds_terminator mem L a fuel hnz hz (by omega) hf]
  simp only
  rw [Nat.mod_eq_of_lt hlt, and_clear_low2 _ hlt]

/-- C11: for a name of `L` non-NUL bytes starting at `a` whose NUL lies at
`a + L`, with `a + L + 3` inside the 64-bit address width and fuel for the
`L + 1` loop tests, `fdtCollectName` returns a cursor that is a multiple of 4,
at least `a + L` and less than `a + L + 4`. -/
theorem fdtCollectName_cursor_aligned (mem : Memory) (a L fuel : Nat)
    (hnz : ∀ i, i < L → mem (a + i) % 256 ≠ 0) (hz : mem (a + L) % 256 = 0)
    (hlt : a + L + 3 < 2 ^ 64) (hf : L < fuel) :
    ∃ cursor, fdtCollectName mem fuel a = .ok cursor ∧
      cursor % 4 = 0 ∧ a + L ≤ cursor ∧ cursor < a + L + 4 := by
  refine ⟨(a + L + 3) / 4 * 4, fdtCollectName_eq mem a L fuel hnz hz hlt hf, ?_, ?_, ?_⟩ <;>
    omega

/-- C11, instance: the name "cpu" at `0x40000040`. -/
theorem fdtCollectName_cursor_aligned_witness :
    (∀ i, i < 3 → memNameCpu (sampleCursor + i) % 256 ≠ 0) ∧
    memNameCpu (sampleCursor + 3) % 256 = 0 ∧
    sampleCursor + 3 + 3 < 2 ^ 64 ∧ 3 < 16 ∧
    ∃ cursor, fdtCollectName memNameCpu 16 sampleCursor = .ok cursor ∧
      cursor % 4 = 0 ∧ sampleCursor + 3 ≤ cursor ∧ cursor < sampleCursor + 3 + 4 :=
  ⟨by decide, by decide, by decide, by decide,
    fdtCollectName_cursor_aligned memNameCpu sampleCursor 3 16
      (by decide) (by decide) (by decide) (by decide)⟩

/-- C12: for the name "abcd" at `0x40000040`, whose NUL lies at the aligned
address `0x40000044`, `fdtCollectName` leaves the cursor at `0x40000044`, on
the NUL itself, and not at `0x40000048`; for the empty name at `0x40000040`
the cursor does not move at all. -/
theorem fdtCollectName_stops_on_aligned_terminator :
    (fdtCollectName memNameAbcd 16 sampleCursor).toOption = some (sampleCursor + 4) ∧
    memNameAbcd (sampleCursor + 4) % 256 = 0 ∧
    (fdtCollectName memNameEmpty 16 sampleCursor).toOption = some sampleCursor ∧
    memNameEmpty sampleCursor % 256 = 0 := by
  decide

/-! ## Memory region table -/

/-- Entry 0 after `platformBuildTable`, whatever the table held before. -/
theorem platformBuildTable_entry0 (c : PlatformConstants) (t : RegionTable) :
    (platformBuildTable c t).2 0 =
      { memoryBase := c._OS_VIRT_ROM_AREA_BASE % 2 ^ 64
        memorySize := c._OS_VIRT_ROM_AREA_SIZE % 2 ^ 64
        memoryType := c.MEM_TYPE_NORMAL_MEMORY % 2 ^ c.memoryTypeBits } := by
  simp [platformBuildTable, storeEntry]

/-- Entry 1 after `platformBuildTable`, whatever the table held before. -/
theorem platformBuildTable_entry1 (c : PlatformConstants) (t : RegionTable) :
    (platformBuildTable c t).2 1 =
      { memoryBase := 2 ^ 30
        memorySize := 2 ^ 24
        memoryType := c.MEM_TYPE_NORMAL_MEMORY % 2 ^ c.memoryTypeBits } := by
  simp [platformBuildTable, storeEntry]

/-- Entry 2 after `platformBuildTable`, whatever the table held before. -/
theorem platformBuildTable_entry2 (c : PlatformConstants) (t : RegionTable) :
    (platformBuildTable c t).2 2 =
      { memoryBase := invalidMarker 64
        memorySize := invalidMarker 64
        memoryType := invalidMarker c.memoryTypeBits } := by
  simp [platformBuildTable, storeEntry]

/-- C13 (refutation): with a 1 MiB region 0, `platformBuildTable` leaves
`platformMemory[1].memorySize` = 16 MiB, which is not 1038 MiB
= (1040 MiB − 1 MiB) − 1 MiB. -/
theorem platformBuildTable_region1_size_is_not_1038_MiB :
    ((platformBuildTable sampleConstants zeroRegionTable).2 0).memorySize = 1 * 2 ^ 20 ∧
    ((platformBuildTable sampleConstants zeroRegionTable).2 1).memorySize = 16 * 2 ^ 20 ∧
    ((platformBuildTable sampleConstants zeroRegionTable).2 1).memorySize
      ≠ (1040 * 2 ^ 20 - 1 * 2 ^ 20) - 1 * 2 ^ 20 := by
  decide

/-- C13 (amended): after `platformBuildTable`, region 1 starts at 1 GiB and
its size is (RAM end address + 1) − region 1's base, with RAM end address
= 1 GiB + 16 MiB − 1: `platformMemory[1].memorySize` = 16 MiB, whatever the
ROM-area constants and the prior table. -/
theorem platformBuildTable_region1_size (c : PlatformConstants) (t : RegionTable) :
    ((platformBuildTable c t).2 1).memoryBase = 2 ^ 30 ∧
    ((platformBuildTable c t).2 1).memorySize
      = ((2 ^ 30 + 16 * 2 ^ 20 - 1) + 1) - ((platformBuildTable c t).2 1).memoryBase ∧
    ((platformBuildTable c t).2 1).memorySize = 16 * 2 ^ 20 := by
  rw [platformBuildTable_entry1]
  refine ⟨rfl, ?_, ?_⟩ <;> norm_num

/-- C14: whatever `platformMemory` held before, `platformBuildTable` returns
`STATUS_SUCCESS`, entries 0 and 1 carry the normal-memory type tag, entry 2
has base, size and type all equal to the invalid marker, and, provided the
configured region 0 is not itself all-invalid, the terminator scan over the
three entries stops at index 2. -/
theorem platformBuildTable_terminated_table (c : PlatformConstants) (t : RegionTable)
    (h0 : ¬ (c._OS_VIRT_ROM_AREA_BASE % 2 ^ 64 = invalidMarker 64 ∧
      c._OS_VIRT_ROM_AREA_SIZE % 2 ^ 64 = invalidMarker 64 ∧
      c.MEM_TYPE_NORMAL_MEMORY % 2 ^ c.memoryTypeBits = invalidMarker c.memoryTypeBits)) :
    (platformBuildTable c t).1 = c.STATUS_SUCCESS ∧
    ((platformBuildTable c t).2 0).memoryType
      = c.MEM_TYPE_NORMAL_MEMORY % 2 ^ c.memoryTypeBits ∧
    ((platformBuildTable c t).2 1).memoryType
      = c.MEM_TYPE_NORMAL_MEMORY % 2 ^ c.memoryTypeBits ∧
    (platformBuildTable c t).2 2 =
      { memoryBase := invalidMarker 64
        memorySize := invalidMarker 64
        memoryType := invalidMarker c.memoryTypeBits } ∧
    scanRegionTable c (platformBuildTable c t).2 platformMemoryEntries 0 = some 2 := by
  refine ⟨rfl, by rw [platformBuildTable_entry0], by rw [platformBuildTable_entry1],
    platformBuildTable_entry2 c t, ?_⟩
  have e0 : isTerminator c ((platformBuildTable c t).2 0) = false := by
    rw [platformBuildTable_entry0]
    simp only [isTerminator, Bool.and_eq_false_iff, beq_eq_false_iff_ne, ne_eq]
    by_contra hc
    simp only [not_or, not_not] at hc
    exact h0 ⟨hc.1.1, hc.1.2, hc.2⟩
  have e1 : isTerminator c ((platformBuildTable c t).2 1) = false := by
    have hb : ((2 : Nat) ^ 30 == invalidMarker 64) = false := by decide
    rw [platformBuildTable_entry1]
    simp only [isTerminator, hb, Bool.false_and]
  have e2 : isTerminator c ((platformBuildTable c t).2 2) = true := by
    rw [platformBuildTable_entry2]
    simp [isTerminator]
  simp [platformMemoryEntries, scanRegionTable, e0, e1, e2]

/-- C14, instance: the sample constants and a table of zeros. -/
theorem platformBuildTable_terminated_table_witness :
    ¬ (sampleConstants._OS_VIRT_ROM_AREA_BASE % 2 ^ 64 = invalidMarker 64 ∧
      sampleConstants._OS_VIRT_ROM_AREA_SIZE % 2 ^ 64 = invalidMarker 64 ∧
      sampleConstants.MEM_TYPE_NORMAL_MEMORY % 2 ^ sampleConstants.memoryTypeBits
        = invalidMarker sampleConstants.memoryTypeBits) ∧
    scanRegionTable sampleConstants (platformBuildTable sampleConstants zeroRegionTable).2
      platformMemoryEntries 0 = some 2 :=
  ⟨by decide,
    (platformBuildTable_terminated_table sampleConstants zeroRegionTable (by decide)).2.2.2.2⟩

/-! ## Bootstrap -/

/-- C15: with the header field `off_dt_struct` holding the big-endian bytes
`00 00 00 38`, the pointer `platformInit` passes to the tree walk is
`0x40000000 + 0x38000000 = 0x78000000`, the field read without a byte swap,
and not `0x40000038`, the blob base plus the big-endian value of the field. -/
theorem platformInit_reads_off_dt_struct_unswapped :
    (platformInit sampleConstants memSampleHeader zeroRegionTable).parseTreeArg = 0x78000000 ∧
    0x40000000 + specBigEndian32 memSampleHeader (0x40000000 + offsetof_off_dt_struct)
      = 0x40000038 := by
  decide

/-- C16 (refutation): the arguments of `MmuInit` are `0x40F00000` (1 GiB +
15 MiB) and `0x100000` (1 MiB), while region 1 of the table left by
`platformBuildTable` has base `0x40000000` (1 GiB) and size `0x1000000`
(16 MiB). -/
theorem platformInit_mmu_arguments_are_not_region1 :
    ((platformInit sampleConstants memSampleHeader zeroRegionTable).mmuInitBase,
      (platformInit sampleConstants memSampleHeader zeroRegionTable).mmuInitSize)
      = (0x40F00000, 0x100000) ∧
    (((platformBuildTable sampleConstants zeroRegionTable).2 1).memoryBase,
      ((platformBuildTable sampleConstants zeroRegionTable).2 1).memorySize)
      = (0x40000000, 0x1000000) := by
  decide

/-- C16 (amended): the two arguments `platformInit` passes to `MmuInit` are
constants of the call, the base 1 GiB + 15 MiB and the size 1 MiB; they
describe the top 1 MiB of region 1 of the table left by `platformBuildTable`:
base + size equals `platformMemory[1].memoryBase + platformMemory[1].memorySize`. -/
theorem platformInit_mmu_arguments (c : PlatformConstants) (mem : Memory)
    (t : RegionTable) :
    (platformInit c mem t).mmuInitBase = 2 ^ 30 + 15 * 2 ^ 20 ∧
    (platformInit c mem t).mmuInitSize = 2 ^ 20 ∧
    (platformInit c mem t).platformMemory = (platformBuildTable c t).2 ∧
    (platformInit c mem t).mmuInitBase + (platformInit c mem t).mmuInitSize
      = ((platformBuildTable c t).2 1).memoryBase
        + ((platformBuildTable c t).2 1).memorySize := by
  rw [platformBuildTable_entry1]
  refine ⟨?_, ?_, rfl, ?_⟩ <;> simp only [platformInit] <;> norm_num

/-! ## Driver dispatch -/

/-- C17: for a node at the MMIO base of entry 0 of `platformDeviceList`, whose
driver-init is `Gic400DistributorInit`, `fdtProcessNode` invokes no
driver-init at all, so `Gic400DistributorInit` is invoked zero times, not
once; handling `FDT_END_NODE` on that node changes nothing in the registry. -/
theorem fdtProcessNode_invokes_no_driver :
    (platformDeviceList sampleConstants).head?.map (fun d => (d.driverInit, d.mmio.memoryBase))
      = some (some DriverInit.Gic400DistributorInit,
          (registryWithGicNode.fdtDeviceList 1).baseAddress) ∧
    (fdtProcessNodeInvocations sampleConstants registryWithGicNode (some 1)).count
      DriverInit.Gic400DistributorInit = 0 ∧
    fdtProcessNodeInvocations sampleConstants registryWithGicNode (some 1) = [] ∧
    (fdtProcessNode registryWithGicNode (some 1)).fdtCurrentIndex
      = registryWithGicNode.fdtCurrentIndex := by
  decide

/-! ## Tree walk: property and no-operation tokens -/

/-- C18: in the `switch` of the walk, handling `FDT_PROP` yields the same
result as handling `FDT_NOP`, and both leave the walk state (cursor, current
node, registry) unchanged. -/
theorem FdtParseSwitch_prop_falls_through_to_nop (mem : Memory) (nameFuel : Nat)
    (s : WalkState) :
    FdtParseSwitch mem nameFuel FDT_PROP s = FdtParseSwitch mem nameFuel FDT_NOP s ∧
    FdtParseSwitch mem nameFuel FDT_PROP s = .ok s ∧
    FdtParseSwitch mem nameFuel FDT_NOP s = .ok s := by
  have hP := FdtParseSwitch_other mem nameFuel FDT_PROP s (by decide) (by decide)
  have hN := FdtParseSwitch_other mem nameFuel FDT_NOP s (by decide) (by decide)
  exact ⟨hP.trans hN.symm, hP, hN⟩

/-! ## Node registry: which slot each call returns -/

/-- C19 (refutation): from the initial registry the 256th call does not
return the slot at index 256 and does not leave `fdtCurrentIndex = 256`: it
stores past the 256-entry array, and neither a returned pointer nor a
registry state is defined after it. -/
theorem fdtGetFreeDeviceNode_call_256_is_undefined :
    (fdtNthHandle fdtInitialRegistry 256).toOption = none ∧
    (fdtGetFreeDeviceNodeCalls 256 fdtInitialRegistry).toOption.map
        (fun r => r.fdtCurrentIndex) = none ∧
    fdtNthHandle fdtInitialRegistry 256 ≠ .ok (some 256) := by
  have h := fdtGetFreeDeviceNodeCalls_past_pool fdtInitialRegistry rfl
  rw [h.1, h.2.1]
  exact ⟨rfl, rfl, by intro hc; cases hc⟩

/-- C19 (amended): starting with `fdtCurrentIndex = 0`, for every `k` with
`1 ≤ k ≤ 255` the `k`-th call of `fdtGetFreeDeviceNode` returns the slot at
index `k` and leaves `fdtCurrentIndex = k`; the returned index is never 0 and
lies inside the 256-entry pool. -/
theorem fdtGetFreeDeviceNode_kth_call_returns_slot_k_in_pool (r : Registry)
    (h0 : r.fdtCurrentIndex = 0) (k : Nat) (hk : 1 ≤ k) (hle : k ≤ 255) :
    (∃ r1, fdtGetFreeDeviceNodeCalls k r = .ok r1 ∧ r1.fdtCurrentIndex = k) ∧
    ∃ i, fdtNthHandle r k = .ok (some i) ∧ i = k ∧ i ≠ 0 ∧ i < fdtPoolCapacity := by
  have hcap : r.fdtCurrentIndex + k < fdtPoolCapacity := by
    rw [h0]; unfold fdtPoolCapacity; omega
  have hidx := fdtGetFreeDeviceNodeCalls_in_pool r k hcap
  have hh := fdtNthHandle_in_pool r k hk hcap
  rw [h0, Nat.zero_add] at hidx hh
  refine ⟨hidx, k, hh, rfl, by omega, ?_⟩
  unfold fdtPoolCapacity
  omega

/-- C19 (amended), instance: the initial registry; the first call returns
slot 1 and the 255th call returns slot 255, the last entry of the pool. -/
theorem fdtGetFreeDeviceNode_kth_call_returns_slot_k_in_pool_witness :
    fdtInitialRegistry.fdtCurrentIndex = 0 ∧ 1 ≤ 1 ∧ 1 ≤ 255 ∧ 1 ≤ 255 ∧ 255 ≤ 255 ∧
    ((∃ r1, fdtGetFreeDeviceNodeCalls 1 fdtInitialRegistry = .ok r1 ∧
        r1.fdtCurrentIndex = 1) ∧
      ∃ i, fdtNthHandle fdtInitialRegistry 1 = .ok (some i) ∧ i = 1 ∧ i ≠ 0 ∧
        i < fdtPoolCapacity) ∧
    ((∃ r1, fdtGetFreeDeviceNodeCalls 255 fdtInitialRegistry = .ok r1 ∧
        r1.fdtCurrentIndex = 255) ∧
      ∃ i, fdtNthHandle fdtInitialRegistry 255 = .ok (some i) ∧ i = 255 ∧ i ≠ 0 ∧
        i < fdtPoolCapacity) :=
  ⟨rfl, by decide, by decide, by decide, by decide,
    fdtGetFreeDeviceNode_kth_call_returns_slot_k_in_pool fdtInitialRegistry rfl 1
      (by decide) (by decide),
    fdtGetFreeDeviceNode_kth_call_returns_slot_k_in_pool fdtInitialRegistry rfl 255
      (by decide) (by decide)⟩

/-! ## Token reader: the values it can return -/

/-- C20: `fdtGetNextToken` returns the byte at the cursor times `2 ^ 24`,
whatever the three following bytes are, and so never returns any of the five
token codes 1, 2, 3, 4 and 9. -/
theorem fdtGetNextToken_returns_first_byte_shifted (mem : Memory) (cursor : Nat)
    (b0 b1 b2 b3 : Nat) :
    (fdtGetNextToken mem cursor).1 = (mem cursor % 256) * 2 ^ 24 ∧
    (fdtGetNextToken (bytesAt cursor [b0, b1, b2, b3]) cursor).1 = (b0 % 256) * 2 ^ 24 ∧
    (fdtGetNextToken mem cursor).1 ≠ FDT_BEGIN_NODE ∧
    (fdtGetNextToken mem cursor).1 ≠ FDT_END_NODE ∧
    (fdtGetNextToken mem cursor).1 ≠ FDT_PROP ∧
    (fdtGetNextToken mem cursor).1 ≠ FDT_NOP ∧
    (fdtGetNextToken mem cursor).1 ≠ FDT_END := by
  have ht := fdtGetNextToken_zero_or_large mem cursor
  have hne : ∀ code : Nat, 0 < code → code < 2 ^ 24 →
      (fdtGetNextToken mem cursor).1 ≠ code := by
    intro code hc0 hc1 he
    rcases ht with h | h <;> omega
  refine ⟨fdtGetNextToken_token mem cursor, ?_,
    hne _ (by decide) (by decide), hne _ (by decide) (by decide),
    hne _ (by decide) (by decide), hne _ (by decide) (by decide),
    hne _ (by decide) (by decide)⟩
  rw [fdtGetNextToken_token]
  simp [bytesAt]
end PlatformInit
